import Mathlib

/-!
# livego `configure` package: configuration schema, defaults, loader and lookups

A shallow embedding of `src/configure/liveconfig.go`.

Modelling conventions

* A Go `string` is an immutable sequence of bytes, `len` counts bytes and
  `s[i:]` slices bytes, so `GoString` is `List UInt8`.  `str "..."` is the
  UTF-8 byte sequence of a literal.
* A Go slice may be `nil`.  `Slice α` is `Option (List α)`: `none` is `nil`,
  `some []` is an allocated slice of length 0.  `len` of both is 0 and ranging
  over both runs no iteration.
* Go `int` fields are never computed with; they are `Int`.
* `os.ReadFile`, `os.IsNotExist`, `json.Unmarshal` and `yaml.Unmarshal` are
  library calls.  `LoadConfig` takes them as the fields of an `Env`.  The two
  decoders write into the `*Config` they are given and may have written part
  of it when they fail, so each returns the resulting `Config` together with
  the optional error.
* A Go function returning `(*Config, error)` either returns a pair, each
  component possibly `nil`, or panics at run time.
* Logging calls have no effect on the returned values and are left out.
-/

namespace configure

/-! ## Go values -/

abbrev GoString := List UInt8

/-- The bytes of a Go string literal. -/
def str (s : String) : GoString := s.toUTF8.data.toList

abbrev Slice (α : Type) := Option (List α)

/-- Go `len(s)` for a slice. -/
def Slice.len {α : Type} : Slice α → Nat
  | none => 0
  | some xs => xs.length

/-- The elements a `for _, x := range s` loop visits, in order. -/
def Slice.elems {α : Type} : Slice α → List α
  | none => []
  | some xs => xs

/-! ## Schema -/

structure Application where
  Appname : GoString
  Live : Bool
  Hls : Bool
  Flv : Bool
  Api : Bool
  StaticPush : Slice GoString
  deriving DecidableEq, Repr

abbrev Applications := Slice Application

structure JWT where
  Secret : GoString
  Algorithm : GoString
  deriving DecidableEq, Repr

structure Config where
  Level : GoString
  ConfigFile : GoString
  FLVArchive : Bool
  FLVDir : GoString
  RTMPNoAuth : Bool
  RTMPAddr : GoString
  RTMPSCert : GoString
  RTMPSKey : GoString
  IsRTMPS : Bool
  HTTPFLVAddr : GoString
  HLSAddr : GoString
  HLSKeepAfterEnd : Bool
  APIAddr : GoString
  RedisAddr : GoString
  RedisPwd : GoString
  ReadTimeout : Int
  WriteTimeout : Int
  EnableTLSVerify : Bool
  GopNum : Int
  JWT : JWT
  Server : Applications
  deriving DecidableEq, Repr

/-! ## Default provider -/

/-- Go `defaultConfig`.  Fields the composite literal does not name take the
zero value of their type. -/
def defaultConfig : Config :=
  { Level := [],
    ConfigFile := str "livego.yaml",
    FLVArchive := false,
    FLVDir := [],
    RTMPNoAuth := false,
    RTMPAddr := str ":1935",
    RTMPSCert := [],
    RTMPSKey := [],
    IsRTMPS := false,
    HTTPFLVAddr := str ":7001",
    HLSAddr := str ":7002",
    HLSKeepAfterEnd := false,
    APIAddr := str ":8090",
    RedisAddr := [],
    RedisPwd := [],
    ReadTimeout := 10,
    WriteTimeout := 10,
    EnableTLSVerify := true,
    GopNum := 1,
    JWT := { Secret := [], Algorithm := [] },
    Server := some [
      { Appname := str "live",
        Live := true,
        Hls := true,
        Flv := true,
        Api := true,
        StaticPush := none }] }

/-! ## Query helpers -/

/-- The `for _, app := range apps` loop of `CheckAppName`. -/
def CheckAppName.scan (appname : GoString) : List Application → Bool
  | [] => false
  | app :: rest =>
    if app.Appname = appname then app.Live
    else CheckAppName.scan appname rest

/-- Go `(*Config).CheckAppName`. -/
def Config.CheckAppName (cfg : Config) (appname : GoString) : Bool :=
  CheckAppName.scan appname (Slice.elems cfg.Server)

/-- The `for _, app := range apps` loop of `GetStaticPushUrlList`. -/
def GetStaticPushUrlList.scan (appname : GoString) :
    List Application → Slice GoString × Bool
  | [] => (none, false)
  | app :: rest =>
    if app.Appname = appname ∧ app.Live = true then
      if Slice.len app.StaticPush > 0 then (app.StaticPush, true)
      else (none, false)
    else GetStaticPushUrlList.scan appname rest

/-- Go `(*Config).GetStaticPushUrlList`. -/
def Config.GetStaticPushUrlList (cfg : Config) (appname : GoString) :
    Slice GoString × Bool :=
  GetStaticPushUrlList.scan appname (Slice.elems cfg.Server)

/-! ## Loader -/

/-- The library calls `LoadConfig` makes.  `E` is the type of non-nil `error`
values. -/
structure Env (E : Type) where
  /-- Go `os.ReadFile(name)`: the bytes read and the error, `none` for `nil`. -/
  ReadFile : GoString → List UInt8 × Option E
  /-- Go `os.IsNotExist(err)` on a non-nil error. -/
  IsNotExist : E → Bool
  /-- Go `json.Unmarshal(data, cfg)`: the `Config` behind the pointer after the
  call, and the error. -/
  jsonUnmarshal : List UInt8 → Config → Config × Option E
  /-- Go `yaml.Unmarshal(data, cfg)`: the `Config` behind the pointer after the
  call, and the error. -/
  yamlUnmarshal : List UInt8 → Config → Config × Option E

/-- What a call of a Go function of result type `(*Config, error)` does:
it returns a pair (`none` is `nil`) or it panics. -/
inductive Outcome (E : Type) where
  | returned (cfg : Option Config) (err : Option E)
  | panicked
  deriving DecidableEq, Repr

/-- Go `LoadConfig`.  The slice expression `configPath[len(configPath)-5:]`
panics when its low bound is negative, that is when `len(configPath) < 5`. -/
def LoadConfig {E : Type} (env : Env E) (configPath : GoString) : Outcome E :=
  let cfg := defaultConfig
  let configPath := if configPath = str "" then cfg.ConfigFile else configPath
  match env.ReadFile configPath with
  | (_, some err) =>
    if env.IsNotExist err then .returned (some cfg) none
    else .returned none (some err)
  | (data, none) =>
    if configPath.length < 5 then .panicked
    else
      let fileExt := configPath.drop (configPath.length - 5)
      if fileExt = str ".json" then
        match env.jsonUnmarshal data cfg with
        | (_, some err) => .returned none (some err)
        | (cfg, none) => .returned (some cfg) none
      else if fileExt = str ".yaml" ∨ fileExt = str ".yml" then
        match env.yamlUnmarshal data cfg with
        | (_, some err) => .returned none (some err)
        | (cfg, none) => .returned (some cfg) none
      else
        match env.yamlUnmarshal data cfg with
        | (cfg, some _) =>
          match env.jsonUnmarshal data cfg with
          | (_, some err) => .returned none (some err)
          | (cfg, none) => .returned (some cfg) none
        | (cfg, none) => .returned (some cfg) none

/-! ## Key resolution of the two decoders

`Config`, `JWT` and `Application` carry only `mapstructure` struct tags.
`encoding/json` reads the `json` tag and `gopkg.in/yaml.v2` reads the `yaml`
tag; for a field with neither, `encoding/json` keys the field by its Go name
and accepts a key that matches it exactly or, failing that, up to letter case,
and `yaml.v2` keys the field by its Go name in lower case and accepts only
that key.  Both skip a key that resolves to no field. -/

/-- One struct field of the schema: its Go name and the value of its
`mapstructure` tag. -/
structure Field where
  goName : String
  mapstructureTag : String
  deriving DecidableEq, Repr

/-- The fields of `Config`, in declaration order. -/
def Config.fields : List Field :=
  [ ⟨"Level", "level"⟩,
    ⟨"ConfigFile", "config_file"⟩,
    ⟨"FLVArchive", "flv_archive"⟩,
    ⟨"FLVDir", "flv_dir"⟩,
    ⟨"RTMPNoAuth", "rtmp_noauth"⟩,
    ⟨"RTMPAddr", "rtmp_addr"⟩,
    ⟨"RTMPSCert", "rtmps_cert"⟩,
    ⟨"RTMPSKey", "rtmps_key"⟩,
    ⟨"IsRTMPS", "enable_rtmps"⟩,
    ⟨"HTTPFLVAddr", "httpflv_addr"⟩,
    ⟨"HLSAddr", "hls_addr"⟩,
    ⟨"HLSKeepAfterEnd", "hls_keep_after_end"⟩,
    ⟨"APIAddr", "api_addr"⟩,
    ⟨"RedisAddr", "redis_addr"⟩,
    ⟨"RedisPwd", "redis_pwd"⟩,
    ⟨"ReadTimeout", "read_timeout"⟩,
    ⟨"WriteTimeout", "write_timeout"⟩,
    ⟨"EnableTLSVerify", "enable_tls_verify"⟩,
    ⟨"GopNum", "gop_num"⟩,
    ⟨"JWT", "jwt"⟩,
    ⟨"Server", "server"⟩ ]

/-- The fields of `Application`, in declaration order. -/
def Application.fields : List Field :=
  [ ⟨"Appname", "appname"⟩,
    ⟨"Live", "live"⟩,
    ⟨"Hls", "hls"⟩,
    ⟨"Flv", "flv"⟩,
    ⟨"Api", "api"⟩,
    ⟨"StaticPush", "static_push"⟩ ]

/-- The fields of `JWT`, in declaration order. -/
def JWT.fields : List Field :=
  [ ⟨"Secret", "secret"⟩,
    ⟨"Algorithm", "algorithm"⟩ ]

/-- Letter-case folding of a key. -/
def foldCase (s : String) : List Char := s.data.map Char.toLower

/-- The field a document key is stored into by `json.Unmarshal`, for fields
without a `json` tag: the field whose Go name is the key, else the first field
whose Go name is the key up to letter case. -/
def jsonField? (fields : List Field) (key : String) : Option Field :=
  match fields.find? (fun f => f.goName = key) with
  | some f => some f
  | none => fields.find? (fun f => foldCase f.goName = foldCase key)

/-- The field a document key is stored into by yaml.v2 `Unmarshal`, for fields
without a `yaml` tag: the field whose lower-cased Go name is the key. -/
def yamlField? (fields : List Field) (key : String) : Option Field :=
  fields.find? (fun f => foldCase f.goName = key.data)

/-- The field the schema's `mapstructure` tags name for a key. -/
def taggedField? (fields : List Field) (key : String) : Option Field :=
  fields.find? (fun f => f.mapstructureTag = key)

/-! ## A small filesystem and decoders for concrete runs -/

/-- Errors of the concrete runs. -/
inductive DemoError where
  | notExist
  | permission
  | jsonInvalid
  | yamlInvalid
  deriving DecidableEq, Repr

/-- Readable files of the concrete runs: path and contents. -/
def demoFiles : List (GoString × List UInt8) :=
  [ (str "cfg", str "\x7b\x7d"),
    (str "a.yml", str "\t\x7b\x7d"),
    (str "cfg.json", str "level: debug"),
    (str "b.json", str "\x7b\x7d"),
    (str "livego.conf", str "level: debug"),
    (str "c.yaml", str "\t\x7b\x7d"),
    (str "tabbed.conf", str "\t\x7b\x7d"),
    (str "broken.conf", str "\t:") ]

/-- Function `os.ReadFile` of the concrete runs: `locked.yaml` exists and cannot be
read, the paths of `demoFiles` are read, every other path does not exist. -/
def demoReadFile (name : GoString) : List UInt8 × Option DemoError :=
  if name = str "locked.yaml" then ([], some .permission)
  else
    match demoFiles.lookup name with
    | some data => (data, none)
    | none => ([], some .notExist)

/-- The `Config` after decoding the document `level: debug` (YAML) or
`{"level":"debug"}` into it. -/
def withLevelDebug (cfg : Config) : Config := { cfg with Level := str "debug" }

/-- Function `json.Unmarshal` of the concrete runs.  It decides the documents used
below as the library does (leading white space, a tab included, is skipped;
an empty object overwrites nothing) and rejects every other document. -/
def demoJsonUnmarshal (data : List UInt8) (cfg : Config) : Config × Option DemoError :=
  if data = str "\x7b\x7d" ∨ data = str "\t\x7b\x7d" then (cfg, none)
  else (cfg, some .jsonInvalid)

/-- Function `yaml.Unmarshal` of the concrete runs.  It decides the documents
used below as the library does (a tab cannot start a token at the start of a
document) and rejects every other document. -/
def demoYamlUnmarshal (data : List UInt8) (cfg : Config) : Config × Option DemoError :=
  if data = str "\x7b\x7d" then (cfg, none)
  else if data = str "level: debug" then (withLevelDebug cfg, none)
  else (cfg, some .yamlInvalid)

/-- The environment of the concrete runs. -/
def demoEnv : Env DemoError :=
  { ReadFile := demoReadFile,
    IsNotExist := fun e => decide (e = .notExist),
    jsonUnmarshal := demoJsonUnmarshal,
    yamlUnmarshal := demoYamlUnmarshal }

/-! ## Sample configurations for the lookups -/

/-- An application with the given name, liveness and static-push list. -/
def mkApp (name : GoString) (live : Bool) (push : Slice GoString) : Application :=
  { Appname := name, Live := live, Hls := true, Flv := true, Api := true,
    StaticPush := push }

/-- A configuration that differs from the default one in its server list. -/
def withServer (apps : List Application) : Config :=
  { defaultConfig with Server := some apps }

/-- Server list `a` (not live), `b` (not live), `b` (live). -/
def cfgShadowed : Config :=
  withServer [mkApp (str "a") false none, mkApp (str "b") false none,
    mkApp (str "b") true none]

/-- Server list `live` (not live, one destination), `live` (live, one
destination). -/
def cfgSecondLive : Config :=
  withServer [mkApp (str "live") false (some [str "rtmp://b"]),
    mkApp (str "live") true (some [str "rtmp://a"])]

/-- Server list `live` (live, an allocated list of no destination). -/
def cfgEmptyPush : Config :=
  withServer [mkApp (str "live") true (some [])]

/-- Server list `live` (not live, one destination). -/
def cfgNotLive : Config :=
  withServer [mkApp (str "live") false (some [str "rtmp://a"])]

/-- Server list `live` (not live, one destination) alone: `cfgSecondLive` cut
after its first entry. -/
def cfgFirstOnly : Config :=
  withServer [mkApp (str "live") false (some [str "rtmp://b"])]

/-- Server list `a` (live), `live` (live, destination `rtmp://a`), `live`
(live, destination `rtmp://b`). -/
def cfgLiveTwice : Config :=
  withServer [mkApp (str "a") true none,
    mkApp (str "live") true (some [str "rtmp://a"]),
    mkApp (str "live") true (some [str "rtmp://b"])]

/-- Server list `a` (live), `live` (live, destination `rtmp://a`):
`cfgLiveTwice` cut after its first entry named `live`. -/
def cfgLiveOnce : Config :=
  withServer [mkApp (str "a") true none,
    mkApp (str "live") true (some [str "rtmp://a"])]

/-! ## Lemmas on the scans -/

theorem CheckAppName_scan_skips (appname : GoString)
    (pre rest : List Application)
    (hpre : ∀ x ∈ pre, x.Appname ≠ appname) :
    CheckAppName.scan appname (pre ++ rest) = CheckAppName.scan appname rest := by
  induction pre with
  | nil => rfl
  | cons x xs ih =>
    have hx : x.Appname ≠ appname := hpre x (List.mem_cons_self x xs)
    have hxs : ∀ y ∈ xs, y.Appname ≠ appname :=
      fun y hy => hpre y (List.mem_cons_of_mem x hy)
    simp [CheckAppName.scan, hx, ih hxs]

theorem GetStaticPushUrlList_scan_skips (appname : GoString)
    (pre rest : List Application)
    (hpre : ∀ x ∈ pre, ¬ (x.Appname = appname ∧ x.Live = true)) :
    GetStaticPushUrlList.scan appname (pre ++ rest)
      = GetStaticPushUrlList.scan appname rest := by
  induction pre with
  | nil => rfl
  | cons x xs ih =>
    have hx : ¬ (x.Appname = appname ∧ x.Live = true) :=
      hpre x (List.mem_cons_self x xs)
    have hxs : ∀ y ∈ xs, ¬ (y.Appname = appname ∧ y.Live = true) :=
      fun y hy => hpre y (List.mem_cons_of_mem x hy)
    rw [List.cons_append, GetStaticPushUrlList.scan, if_neg hx, ih hxs]

theorem GetStaticPushUrlList_scan_flag_iff (appname : GoString)
    (apps : List Application) :
    (GetStaticPushUrlList.scan appname apps).2 = true
      ↔ 0 < Slice.len (GetStaticPushUrlList.scan appname apps).1 := by
  induction apps with
  | nil => simp [GetStaticPushUrlList.scan, Slice.len]
  | cons x xs ih =>
    rw [GetStaticPushUrlList.scan]
    by_cases hx : x.Appname = appname ∧ x.Live = true
    · rw [if_pos hx]
      by_cases hl : Slice.len x.StaticPush > 0
      · rw [if_pos hl]
        simpa using hl
      · rw [if_neg hl]
        simp [Slice.len]
    · rw [if_neg hx]
      exact ih

/-- Two server lists that agree up to and including the first Application
that is named `appname` and live give the same `GetStaticPushUrlList` scan. -/
theorem GetStaticPushUrlList_scan_agrees_up_to_first_live (appname : GoString)
    (pre : List Application) (a : Application) (suf1 suf2 : List Application)
    (hpre : ∀ x ∈ pre, ¬ (x.Appname = appname ∧ x.Live = true))
    (ha : a.Appname = appname ∧ a.Live = true) :
    GetStaticPushUrlList.scan appname (pre ++ a :: suf1)
      = GetStaticPushUrlList.scan appname (pre ++ a :: suf2) := by
  rw [GetStaticPushUrlList_scan_skips appname pre _ hpre,
    GetStaticPushUrlList_scan_skips appname pre _ hpre]
  have hstep : ∀ suf : List Application,
      GetStaticPushUrlList.scan appname (a :: suf)
        = if Slice.len a.StaticPush > 0 then (a.StaticPush, true)
          else (none, false) := by
    intro suf
    rw [GetStaticPushUrlList.scan, if_pos ha]
  rw [hstep suf1, hstep suf2]

/-! ## Query helpers: theorems -/

/-- C1: `CheckAppName(appname)` returns the `Live` flag of the first
Application of the Server list, in list order, whose `Appname` equals
`appname`, and returns false when no Application of the list has that
`Appname`. -/
theorem CheckAppName_first_match (cfg : Config) (appname : GoString) :
    (∀ (pre : List Application) (a : Application) (suf : List Application),
        Slice.elems cfg.Server = pre ++ a :: suf →
        (∀ x ∈ pre, x.Appname ≠ appname) →
        a.Appname = appname →
        cfg.CheckAppName appname = a.Live)
    ∧ ((∀ x ∈ Slice.elems cfg.Server, x.Appname ≠ appname) →
        cfg.CheckAppName appname = false) := by
  constructor
  · intro pre a suf hsplit hpre ha
    unfold Config.CheckAppName
    rw [hsplit, CheckAppName_scan_skips appname pre (a :: suf) hpre]
    simp [CheckAppName.scan, ha]
  · intro hnone
    unfold Config.CheckAppName
    have h := CheckAppName_scan_skips appname
      (Slice.elems cfg.Server) [] hnone
    rw [List.append_nil] at h
    rw [h]
    rfl

/-- Witness for C1: in the list `a` (off), `b` (off), `b` (on) the first `b`
is not live, so `CheckAppName("b")` is false; no entry is named `c`. -/
theorem CheckAppName_first_match_witness :
    cfgShadowed.CheckAppName (str "b") = false
    ∧ cfgShadowed.CheckAppName (str "c") = false :=
  ⟨(CheckAppName_first_match cfgShadowed (str "b")).1
      [mkApp (str "a") false none] (mkApp (str "b") false none)
      [mkApp (str "b") true none] rfl (by decide) rfl,
   (CheckAppName_first_match cfgShadowed (str "c")).2 (by decide)⟩

/-- C2: `GetStaticPushUrlList(appname)` is decided by the first Application
of the Server list that is named `appname` and live: with a non-empty
`StaticPush` the result is that list and true, with an empty `StaticPush`
the result is `(nil, false)`; with no Application both named `appname` and
live the result is `(nil, false)`.  The boolean is true exactly when the
returned list is non-empty. -/
theorem GetStaticPushUrlList_first_live_match (cfg : Config) (appname : GoString) :
    (∀ (pre : List Application) (a : Application) (suf : List Application),
        Slice.elems cfg.Server = pre ++ a :: suf →
        (∀ x ∈ pre, ¬ (x.Appname = appname ∧ x.Live = true)) →
        a.Appname = appname → a.Live = true →
        (0 < Slice.len a.StaticPush →
          cfg.GetStaticPushUrlList appname = (a.StaticPush, true))
        ∧ (Slice.len a.StaticPush = 0 →
          cfg.GetStaticPushUrlList appname = (none, false)))
    ∧ ((∀ x ∈ Slice.elems cfg.Server, ¬ (x.Appname = appname ∧ x.Live = true)) →
        cfg.GetStaticPushUrlList appname = (none, false))
    ∧ ((cfg.GetStaticPushUrlList appname).2 = true
        ↔ 0 < Slice.len (cfg.GetStaticPushUrlList appname).1) := by
  refine ⟨?_, ?_, ?_⟩
  · intro pre a suf hsplit hpre ha hlive
    unfold Config.GetStaticPushUrlList
    rw [hsplit,
      GetStaticPushUrlList_scan_skips appname pre (a :: suf) hpre,
      GetStaticPushUrlList.scan, if_pos ⟨ha, hlive⟩]
    constructor
    · intro hlen
      rw [if_pos hlen]
    · intro hlen
      rw [if_neg (by omega)]
  · intro hnone
    unfold Config.GetStaticPushUrlList
    have h := GetStaticPushUrlList_scan_skips appname
      (Slice.elems cfg.Server) [] hnone
    rw [List.append_nil] at h
    rw [h]
    rfl
  · exact GetStaticPushUrlList_scan_flag_iff appname (Slice.elems cfg.Server)

/-- Witness for C2: the first `live` entry is not live and is passed over, the
second is live and has one destination; an entry that is live with an
allocated empty list gives `(nil, false)`; an entry that is not live gives
`(nil, false)`. -/
theorem GetStaticPushUrlList_first_live_match_witness :
    cfgSecondLive.GetStaticPushUrlList (str "live") = (some [str "rtmp://a"], true)
    ∧ cfgEmptyPush.GetStaticPushUrlList (str "live") = (none, false)
    ∧ cfgNotLive.GetStaticPushUrlList (str "live") = (none, false) :=
  ⟨((GetStaticPushUrlList_first_live_match cfgSecondLive (str "live")).1
      [mkApp (str "live") false (some [str "rtmp://b"])]
      (mkApp (str "live") true (some [str "rtmp://a"])) [] rfl (by decide)
      rfl rfl).1 (by decide),
   ((GetStaticPushUrlList_first_live_match cfgEmptyPush (str "live")).1
      [] (mkApp (str "live") true (some [])) [] rfl (by decide) rfl rfl).2 rfl,
   (GetStaticPushUrlList_first_live_match cfgNotLive (str "live")).2.1 (by decide)⟩

/-- Counterexample for C9: the server lists of `cfgSecondLive` and
`cfgFirstOnly` agree up to and including the first Application named `live`,
which is not live, and `GetStaticPushUrlList("live")` differs on them: the
scan passes over a named entry that is not live and reaches the second
entry. -/
theorem GetStaticPushUrlList_sees_past_first_named :
    ¬ (∀ (c1 c2 : Config) (appname : GoString) (pre : List Application)
        (a : Application) (suf1 suf2 : List Application),
        Slice.elems c1.Server = pre ++ a :: suf1 →
        Slice.elems c2.Server = pre ++ a :: suf2 →
        (∀ x ∈ pre, x.Appname ≠ appname) →
        a.Appname = appname →
        c1.CheckAppName appname = c2.CheckAppName appname
        ∧ c1.GetStaticPushUrlList appname = c2.GetStaticPushUrlList appname) := by
  intro h
  have hc := h cfgSecondLive cfgFirstOnly (str "live") []
    (mkApp (str "live") false (some [str "rtmp://b"]))
    [mkApp (str "live") true (some [str "rtmp://a"])] []
    rfl rfl (by decide) rfl
  exact absurd hc.2 (by decide)

/-- C9, amended: when two Configs have server lists that agree on the
Applications up to and including the first one named `appname`,
`CheckAppName(appname)` returns the same boolean on both, and, when that
first Application is live, `GetStaticPushUrlList(appname)` returns the same
pair on both. -/
theorem lookups_agree_up_to_first_named (c1 c2 : Config) (appname : GoString)
    (pre : List Application) (a : Application) (suf1 suf2 : List Application)
    (h1 : Slice.elems c1.Server = pre ++ a :: suf1)
    (h2 : Slice.elems c2.Server = pre ++ a :: suf2)
    (hpre : ∀ x ∈ pre, x.Appname ≠ appname)
    (ha : a.Appname = appname) :
    c1.CheckAppName appname = c2.CheckAppName appname
    ∧ (a.Live = true →
        c1.GetStaticPushUrlList appname = c2.GetStaticPushUrlList appname) := by
  constructor
  · unfold Config.CheckAppName
    rw [h1, h2, CheckAppName_scan_skips appname pre _ hpre,
      CheckAppName_scan_skips appname pre _ hpre]
    simp [CheckAppName.scan, ha]
  · intro hlive
    have hpre2 : ∀ x ∈ pre, ¬ (x.Appname = appname ∧ x.Live = true) :=
      fun x hx hboth => hpre x hx hboth.1
    unfold Config.GetStaticPushUrlList
    rw [h1, h2]
    exact GetStaticPushUrlList_scan_agrees_up_to_first_live appname pre a
      suf1 suf2 hpre2 ⟨ha, hlive⟩

/-- Witness for C9, amended: `cfgLiveTwice` and `cfgLiveOnce` agree up to and
including their first entry named `live`, which is live. -/
theorem lookups_agree_up_to_first_named_witness :
    cfgLiveTwice.CheckAppName (str "live") = cfgLiveOnce.CheckAppName (str "live")
    ∧ cfgLiveTwice.GetStaticPushUrlList (str "live")
        = cfgLiveOnce.GetStaticPushUrlList (str "live") :=
  have h := lookups_agree_up_to_first_named cfgLiveTwice cfgLiveOnce (str "live")
    [mkApp (str "a") true none]
    (mkApp (str "live") true (some [str "rtmp://a"]))
    [mkApp (str "live") true (some [str "rtmp://b"])] []
    rfl rfl (by decide) rfl
  ⟨h.1, h.2 rfl⟩

/-- C10: the default Config has a server list of exactly one Application,
named `live`, with `Live`, `Hls`, `Flv` and `Api` true and no static-push
destination; on it `CheckAppName("live")` is true, `CheckAppName(s)` is false
for every other `s`, and `GetStaticPushUrlList(s)` is `(nil, false)` for every
`s`. -/
theorem defaultConfig_lookups :
    (∃ app : Application, Slice.elems defaultConfig.Server = [app]
        ∧ app.Appname = str "live" ∧ app.Live = true ∧ app.Hls = true
        ∧ app.Flv = true ∧ app.Api = true ∧ Slice.len app.StaticPush = 0)
    ∧ defaultConfig.CheckAppName (str "live") = true
    ∧ (∀ s : GoString, s ≠ str "live" → defaultConfig.CheckAppName s = false)
    ∧ (∀ s : GoString, defaultConfig.GetStaticPushUrlList s = (none, false)) := by
  refine ⟨⟨_, rfl, rfl, rfl, rfl, rfl, rfl, rfl⟩, by decide, ?_, ?_⟩
  · intro s hs
    have hs2 : ¬ (str "live" = s) := fun h => hs h.symm
    simp [Config.CheckAppName, defaultConfig, Slice.elems, CheckAppName.scan, hs2]
  · intro s
    by_cases hs : str "live" = s
    · simp [Config.GetStaticPushUrlList, defaultConfig, Slice.elems,
        GetStaticPushUrlList.scan, Slice.len, hs]
    · simp [Config.GetStaticPushUrlList, defaultConfig, Slice.elems,
        GetStaticPushUrlList.scan, hs]

/-- Witness for C10: `missing` is not `live`, so `CheckAppName("missing")` is
false on the default Config. -/
theorem defaultConfig_lookups_witness :
    defaultConfig.CheckAppName (str "missing") = false :=
  defaultConfig_lookups.2.2.1 (str "missing") (by decide)

/-! ## Lemmas on paths and on the dispatch of `LoadConfig` -/

theorem str_empty : str "" = [] := rfl

theorem str_json_length : (str ".json").length = 5 := rfl

theorem str_yaml_length : (str ".yaml").length = 5 := rfl

/-- A path that ends in a 5-byte suffix has at least 5 bytes and its last 5
bytes are that suffix. -/
theorem fileExt_of_suffix (s p : GoString) (hs : s.length = 5) (h : s <:+ p) :
    5 ≤ p.length ∧ p.drop (p.length - 5) = s := by
  obtain ⟨pre, rfl⟩ := h
  constructor
  · simp [hs]
  · have hlen : (pre ++ s).length - 5 = pre.length := by simp [hs]
    rw [hlen, List.drop_left]

/-- The last 5 bytes of a path of at least 5 bytes are a suffix of it. -/
theorem suffix_of_fileExt (s p : GoString) (h : p.drop (p.length - 5) = s) :
    s <:+ p := by
  rw [← h]
  exact List.drop_suffix _ _

/-- The value of `LoadConfig` once the file at a non-empty path has been
read. -/
theorem LoadConfig_after_read {E : Type} (env : Env E) (configPath : GoString)
    (data : List UInt8) (hne : configPath ≠ [])
    (hread : env.ReadFile configPath = (data, none)) :
    LoadConfig env configPath =
      if configPath.length < 5 then .panicked
      else if configPath.drop (configPath.length - 5) = str ".json" then
        match env.jsonUnmarshal data defaultConfig with
        | (_, some err) => .returned none (some err)
        | (cfg, none) => .returned (some cfg) none
      else if configPath.drop (configPath.length - 5) = str ".yaml"
          ∨ configPath.drop (configPath.length - 5) = str ".yml" then
        match env.yamlUnmarshal data defaultConfig with
        | (_, some err) => .returned none (some err)
        | (cfg, none) => .returned (some cfg) none
      else
        match env.yamlUnmarshal data defaultConfig with
        | (cfg, some _) =>
          match env.jsonUnmarshal data cfg with
          | (_, some err) => .returned none (some err)
          | (cfg, none) => .returned (some cfg) none
        | (cfg, none) => .returned (some cfg) none := by
  unfold LoadConfig
  simp only [str_empty, if_neg hne, hread]

/-- The 5-byte slice the extension test looks at is never the 4-byte literal
`.yml`. -/
theorem fileExt_ne_yml (p : GoString) (h5 : 5 ≤ p.length) :
    p.drop (p.length - 5) ≠ str ".yml" := by
  intro h
  have hlen : (p.drop (p.length - 5)).length = 5 := by
    rw [List.length_drop]; omega
  rw [h] at hlen
  exact absurd hlen (by decide)

/-- A path with fewer than 5 bytes whose file is read makes `LoadConfig`
panic. -/
theorem LoadConfig_short_path {E : Type} (env : Env E) (configPath : GoString)
    (data : List UInt8) (hne : configPath ≠ []) (hshort : configPath.length < 5)
    (hread : env.ReadFile configPath = (data, none)) :
    LoadConfig env configPath = .panicked := by
  rw [LoadConfig_after_read env configPath data hne hread, if_pos hshort]

/-- A path that ends in `.yaml` is decoded as YAML only. -/
theorem LoadConfig_yaml_only {E : Type} (env : Env E) (configPath : GoString)
    (data : List UInt8) (hext : str ".yaml" <:+ configPath)
    (hread : env.ReadFile configPath = (data, none)) :
    LoadConfig env configPath =
      match env.yamlUnmarshal data defaultConfig with
      | (_, some err) => .returned none (some err)
      | (cfg, none) => .returned (some cfg) none := by
  obtain ⟨h5, hdrop⟩ := fileExt_of_suffix _ configPath str_yaml_length hext
  have hne : configPath ≠ [] := by
    intro h; rw [h] at h5; simp at h5
  rw [LoadConfig_after_read env configPath data hne hread, if_neg (by omega),
    hdrop, if_neg (by decide), if_pos (Or.inl rfl)]

/-- A path of at least 5 bytes whose last 5 bytes are neither `.json` nor
`.yaml` is decoded as YAML and, when that fails, as JSON. -/
theorem LoadConfig_fallback {E : Type} (env : Env E) (configPath : GoString)
    (data : List UInt8) (h5 : 5 ≤ configPath.length)
    (hj : ¬ str ".json" <:+ configPath) (hy : ¬ str ".yaml" <:+ configPath)
    (hread : env.ReadFile configPath = (data, none)) :
    LoadConfig env configPath =
      match env.yamlUnmarshal data defaultConfig with
      | (cfg, some _) =>
        match env.jsonUnmarshal data cfg with
        | (_, some err) => .returned none (some err)
        | (cfg, none) => .returned (some cfg) none
      | (cfg, none) => .returned (some cfg) none := by
  have hne : configPath ≠ [] := by
    intro h; rw [h] at h5; simp at h5
  have hj2 : ¬ configPath.drop (configPath.length - 5) = str ".json" :=
    fun h => hj (suffix_of_fileExt _ _ h)
  have hy2 : ¬ (configPath.drop (configPath.length - 5) = str ".yaml"
      ∨ configPath.drop (configPath.length - 5) = str ".yml") := by
    rintro (h | h)
    · exact hy (suffix_of_fileExt _ _ h)
    · exact fileExt_ne_yml configPath h5 h
  rw [LoadConfig_after_read env configPath data hne hread, if_neg (by omega),
    if_neg hj2, if_neg hy2]

/-- A path of at least 5 bytes that ends in `.yml` ends neither in `.json`
nor in `.yaml`. -/
theorem yml_path_not_json_not_yaml (configPath : GoString)
    (hext : str ".yml" <:+ configPath) :
    ¬ str ".json" <:+ configPath ∧ ¬ str ".yaml" <:+ configPath := by
  obtain ⟨pre, rfl⟩ := hext
  constructor
  · rintro ⟨q, hq⟩
    have h := congrArg List.reverse hq
    simp only [List.reverse_append] at h
    have e1 : (str ".json").reverse = [110, 111, 115, 106, 46] := by decide
    have e2 : (str ".yml").reverse = [108, 109, 121, 46] := by decide
    rw [e1, e2] at h
    simp at h
  · rintro ⟨q, hq⟩
    have h := congrArg List.reverse hq
    simp only [List.reverse_append] at h
    have e1 : (str ".yaml").reverse = [108, 109, 97, 121, 46] := by decide
    have e2 : (str ".yml").reverse = [108, 109, 121, 46] := by decide
    rw [e1, e2] at h
    simp at h

/-- A path of at least 5 bytes that ends in `.yml` is decoded as YAML and,
when that fails, as JSON: the test `fileExt == ".yml"` compares a 5-byte slice
with a 4-byte literal. -/
theorem LoadConfig_yml_path {E : Type} (env : Env E) (configPath : GoString)
    (data : List UInt8) (h5 : 5 ≤ configPath.length)
    (hext : str ".yml" <:+ configPath)
    (hread : env.ReadFile configPath = (data, none)) :
    LoadConfig env configPath =
      match env.yamlUnmarshal data defaultConfig with
      | (cfg, some _) =>
        match env.jsonUnmarshal data cfg with
        | (_, some err) => .returned none (some err)
        | (cfg, none) => .returned (some cfg) none
      | (cfg, none) => .returned (some cfg) none :=
  LoadConfig_fallback env configPath data h5
    (yml_path_not_json_not_yaml configPath hext).1
    (yml_path_not_json_not_yaml configPath hext).2 hread

/-! ## Loader: theorems -/

/-- C3: what the code does at the path `cfg`.  The path is non-empty, has
3 bytes, and its file is read; `LoadConfig` panics in the slice expression
`configPath[len(configPath)-5:]` and reaches no decoder. -/
theorem LoadConfig_panics_on_three_byte_path :
    str "cfg" ≠ [] ∧ (str "cfg").length = 3
    ∧ demoEnv.ReadFile (str "cfg") = (str "\x7b\x7d", none)
    ∧ LoadConfig demoEnv (str "cfg") = .panicked :=
  ⟨by decide, rfl, rfl,
   LoadConfig_short_path demoEnv (str "cfg") (str "\x7b\x7d") (by decide)
     (by decide) rfl⟩

/-- C4: what the code does at the path `a.yml`.  The path ends in `.yml` and
not in `.json`, its file is read, and the YAML decoder rejects the contents (a
tab followed by an empty JSON object); `LoadConfig` goes on to the JSON
decoder and returns a Config and no error instead of the YAML error. -/
theorem LoadConfig_yml_path_falls_back_to_json :
    str ".yml" <:+ str "a.yml" ∧ ¬ str ".json" <:+ str "a.yml"
    ∧ demoEnv.ReadFile (str "a.yml") = (str "\t\x7b\x7d", none)
    ∧ demoEnv.yamlUnmarshal (str "\t\x7b\x7d") defaultConfig
        = (defaultConfig, some .yamlInvalid)
    ∧ demoEnv.jsonUnmarshal (str "\t\x7b\x7d") defaultConfig
        = (defaultConfig, none)
    ∧ LoadConfig demoEnv (str "a.yml") = .returned (some defaultConfig) none :=
  have hsuf : str ".yml" <:+ str "a.yml" := ⟨str "a", rfl⟩
  ⟨hsuf, (yml_path_not_json_not_yaml (str "a.yml") hsuf).1, rfl, rfl, rfl,
   (LoadConfig_yml_path demoEnv (str "a.yml") (str "\t\x7b\x7d") (by decide)
     hsuf rfl).trans rfl⟩

/-- C5: for a path that ends in the 5 bytes `.json` and whose file is read,
`LoadConfig` decodes the contents as JSON only: when the JSON decoder fails
it returns a nil Config and that error, when it succeeds it returns the
Config the decoder wrote over the defaults and no error, and in both cases the
outcome does not depend on the YAML decoder. -/
theorem LoadConfig_json_only {E : Type} (env : Env E) (configPath : GoString)
    (data : List UInt8) (hext : str ".json" <:+ configPath)
    (hread : env.ReadFile configPath = (data, none)) :
    (∀ (cfg : Config) (err : E),
        env.jsonUnmarshal data defaultConfig = (cfg, some err) →
        LoadConfig env configPath = .returned none (some err))
    ∧ (∀ cfg : Config,
        env.jsonUnmarshal data defaultConfig = (cfg, none) →
        LoadConfig env configPath = .returned (some cfg) none)
    ∧ (∀ yaml : List UInt8 → Config → Config × Option E,
        LoadConfig { env with yamlUnmarshal := yaml } configPath
          = LoadConfig env configPath) := by
  obtain ⟨h5, hdrop⟩ := fileExt_of_suffix _ configPath str_json_length hext
  have hne : configPath ≠ [] := by
    intro h; rw [h] at h5; simp at h5
  have key : ∀ env2 : Env E, env2.ReadFile configPath = (data, none) →
      LoadConfig env2 configPath =
        match env2.jsonUnmarshal data defaultConfig with
        | (_, some err) => .returned none (some err)
        | (cfg, none) => .returned (some cfg) none := by
    intro env2 hread2
    rw [LoadConfig_after_read env2 configPath data hne hread2,
      if_neg (by omega), hdrop, if_pos rfl]
  refine ⟨?_, ?_, ?_⟩
  · intro cfg err hjson
    rw [key env hread, hjson]
  · intro cfg hjson
    rw [key env hread, hjson]
  · intro yaml
    rw [key env hread, key { env with yamlUnmarshal := yaml } hread]

/-- Witness for C5: `cfg.json` holds `level: debug`, which the YAML decoder
accepts and the JSON decoder rejects, and `LoadConfig` returns the JSON
error; `b.json` holds an empty object and `LoadConfig` returns the defaults. -/
theorem LoadConfig_json_only_witness :
    (demoEnv.yamlUnmarshal (str "level: debug") defaultConfig).2 = none
    ∧ LoadConfig demoEnv (str "cfg.json") = .returned none (some .jsonInvalid)
    ∧ LoadConfig demoEnv (str "b.json") = .returned (some defaultConfig) none :=
  ⟨rfl,
   (LoadConfig_json_only demoEnv (str "cfg.json") (str "level: debug")
      ⟨str "cfg", rfl⟩ rfl).1 defaultConfig .jsonInvalid rfl,
   (LoadConfig_json_only demoEnv (str "b.json") (str "\x7b\x7d")
      ⟨str "b", rfl⟩ rfl).2.1 defaultConfig rfl⟩

/-- C6: for a path of at least 5 bytes whose last 5 bytes are neither `.json`
nor `.yaml`, and whose file is read, `LoadConfig` decodes as YAML first and
as JSON only when YAML fails: it returns a Config and no error when the YAML
decoder succeeds or, failing that, the JSON decoder succeeds; it returns a nil
Config and the JSON decoder's error when both fail, and it returns an error
exactly when both fail. -/
theorem LoadConfig_unknown_extension {E : Type} (env : Env E)
    (configPath : GoString) (data : List UInt8)
    (h5 : 5 ≤ configPath.length)
    (hj : ¬ str ".json" <:+ configPath) (hy : ¬ str ".yaml" <:+ configPath)
    (hread : env.ReadFile configPath = (data, none)) :
    (∀ cfg1 : Config,
        env.yamlUnmarshal data defaultConfig = (cfg1, none) →
        LoadConfig env configPath = .returned (some cfg1) none)
    ∧ (∀ (cfg1 : Config) (e1 : E) (cfg2 : Config),
        env.yamlUnmarshal data defaultConfig = (cfg1, some e1) →
        env.jsonUnmarshal data cfg1 = (cfg2, none) →
        LoadConfig env configPath = .returned (some cfg2) none)
    ∧ (∀ (cfg1 : Config) (e1 : E) (cfg2 : Config) (e2 : E),
        env.yamlUnmarshal data defaultConfig = (cfg1, some e1) →
        env.jsonUnmarshal data cfg1 = (cfg2, some e2) →
        LoadConfig env configPath = .returned none (some e2))
    ∧ ((∃ (c : Option Config) (e : E),
          LoadConfig env configPath = .returned c (some e))
        ↔ ((env.yamlUnmarshal data defaultConfig).2 ≠ none
          ∧ (env.jsonUnmarshal data
              (env.yamlUnmarshal data defaultConfig).1).2 ≠ none)) := by
  have key := LoadConfig_fallback env configPath data h5 hj hy hread
  refine ⟨?_, ?_, ?_, ?_⟩
  · intro cfg1 hyaml
    rw [key, hyaml]
  · intro cfg1 e1 cfg2 hyaml hjson
    rw [key, hyaml]
    simp only [hjson]
  · intro cfg1 e1 cfg2 e2 hyaml hjson
    rw [key, hyaml]
    simp only [hjson]
  · rw [key]
    rcases hyaml : env.yamlUnmarshal data defaultConfig with ⟨cfg1, _ | e1⟩
    · simp
    · rcases hjson : env.jsonUnmarshal data cfg1 with ⟨cfg2, _ | e2⟩
      · simp [hjson]
      · simp [hjson]

/-- Witness for C6: `livego.conf` holds `level: debug`, the YAML decoder
succeeds and the defaults with the level set are returned; `tabbed.conf` holds
a tab and an empty object, YAML fails, JSON succeeds and the defaults are
returned; `broken.conf` holds a tab and a colon, both decoders fail and the
JSON error is returned with a nil Config. -/
theorem LoadConfig_unknown_extension_witness :
    LoadConfig demoEnv (str "livego.conf")
      = .returned (some (withLevelDebug defaultConfig)) none
    ∧ LoadConfig demoEnv (str "tabbed.conf")
      = .returned (some defaultConfig) none
    ∧ LoadConfig demoEnv (str "broken.conf")
      = .returned none (some .jsonInvalid) :=
  ⟨(LoadConfig_unknown_extension demoEnv (str "livego.conf")
      (str "level: debug") (by decide) (by decide) (by decide) rfl).1
      (withLevelDebug defaultConfig) rfl,
   (LoadConfig_unknown_extension demoEnv (str "tabbed.conf")
      (str "\t\x7b\x7d") (by decide) (by decide) (by decide) rfl).2.1
      defaultConfig .yamlInvalid defaultConfig rfl rfl,
   (LoadConfig_unknown_extension demoEnv (str "broken.conf")
      (str "\t:") (by decide) (by decide) (by decide) rfl).2.2.1
      defaultConfig .yamlInvalid defaultConfig .jsonInvalid rfl rfl⟩

/-- C7: for every path, the empty path standing for `livego.yaml`, when
reading the resolved path fails with an error that `os.IsNotExist` recognises
`LoadConfig` returns the default Config and no error, and when it fails with
any other error `LoadConfig` returns a nil Config and that same error. -/
theorem LoadConfig_read_failure {E : Type} (env : Env E) (configPath : GoString)
    (data : List UInt8) (err : E)
    (hread : env.ReadFile
        (if configPath = [] then str "livego.yaml" else configPath)
      = (data, some err)) :
    (env.IsNotExist err = true →
        LoadConfig env configPath = .returned (some defaultConfig) none)
    ∧ (env.IsNotExist err = false →
        LoadConfig env configPath = .returned none (some err)) := by
  have hres : (if configPath = str "" then defaultConfig.ConfigFile else configPath)
      = (if configPath = [] then str "livego.yaml" else configPath) := rfl
  constructor
  · intro hmissing
    unfold LoadConfig
    simp only [hres, hread, hmissing, if_true]
  · intro hother
    unfold LoadConfig
    simp only [hres, hread, hother]
    rfl

/-- Witness for C7: with the empty path `livego.yaml` is looked up, does not
exist, and the defaults are returned; `locked.yaml` cannot be read and the
permission error is returned. -/
theorem LoadConfig_read_failure_witness :
    LoadConfig demoEnv (str "") = .returned (some defaultConfig) none
    ∧ LoadConfig demoEnv (str "locked.yaml") = .returned none (some .permission) :=
  ⟨(LoadConfig_read_failure demoEnv (str "") [] .notExist rfl).1 rfl,
   (LoadConfig_read_failure demoEnv (str "locked.yaml") [] .permission rfl).2 rfl⟩

/-- C8: what the decoders do with the keys of the field-name table.  The
table's key `rtmp_addr` names the field `RTMPAddr` in the `mapstructure`
tags, and neither decoder resolves it to a field; the same holds for
`config_file`, `read_timeout` and, inside a server entry, `static_push`.  Of
the keys of the table only `level`, `jwt` and `server` reach their `Config`
field, under either decoder. -/
theorem table_keys_not_resolved_by_decoders :
    taggedField? Config.fields "rtmp_addr" = some ⟨"RTMPAddr", "rtmp_addr"⟩
    ∧ jsonField? Config.fields "rtmp_addr" = none
    ∧ yamlField? Config.fields "rtmp_addr" = none
    ∧ jsonField? Config.fields "config_file" = none
    ∧ yamlField? Config.fields "config_file" = none
    ∧ jsonField? Config.fields "read_timeout" = none
    ∧ yamlField? Config.fields "read_timeout" = none
    ∧ jsonField? Application.fields "static_push" = none
    ∧ yamlField? Application.fields "static_push" = none
    ∧ (Config.fields.filter
        (fun f => jsonField? Config.fields f.mapstructureTag = some f)).map
          Field.mapstructureTag = ["level", "jwt", "server"]
    ∧ (Config.fields.filter
        (fun f => yamlField? Config.fields f.mapstructureTag = some f)).map
          Field.mapstructureTag = ["level", "jwt", "server"] := by
  decide

end configure
